import Mathlib

/-!
Verification of the reconciliation / assembly core of
`libs/megaparse/src/megaparse/parser/doctr_parser.py` (MegaParse).

Shallow embedding: coordinates are rationals (`ℚ`); the Python `dict`
`result` (insertion-ordered) is an association list; `uuid.uuid4()` is an
abstract supply `supply : ℕ → ℕ` indexed by a call counter; fallible code
returns `Except String`.  Identifiers (`UUID` in the source) are `ℕ`.
-/

namespace Megaparse

/-- Embedding of megaparse_sdk's `Point2D`: a 2-D point. -/
structure Point2D where
  x : ℚ
  y : ℚ
deriving DecidableEq, Repr

/-- Embedding of megaparse_sdk's `BBOX`: axis-aligned box, two corners. -/
structure BBOX where
  top_left : Point2D
  bottom_right : Point2D
deriving DecidableEq, Repr

/-- The block classes of megaparse_sdk's document schema, as a tag.
The source dispatches on Python classes (`CaptionBlock`, …); here one
constructor per class. -/
inductive BlockCls where
  | CaptionBlock
  | TextBlock
  | ListElementBlock
  | FooterBlock
  | HeaderBlock
  | ImageBlock
  | SubTitleBlock
  | TableBlock
  | TitleBlock
  | UndefinedBlock
deriving DecidableEq, Repr

/-- Embedding of `block_cls_map` of doctr_parser.py: label (0–10) → block class. -/
def block_cls_map : Fin 11 → BlockCls
  | 0 => .CaptionBlock
  | 1 => .TextBlock
  | 2 => .TextBlock
  | 3 => .ListElementBlock
  | 4 => .FooterBlock
  | 5 => .HeaderBlock
  | 6 => .ImageBlock
  | 7 => .SubTitleBlock
  | 8 => .TableBlock
  | 9 => .TextBlock
  | 10 => .TitleBlock

/-- Modelled from the spec: the class hierarchy of megaparse_sdk
(`issubclass(block_cls, TextBlock)` in the source) is not under src/.
Spec §4.3: only labels mapping to a text-bearing variant accept line
merging; the non-text variants are image and table, and the undefined
fallback is text-bearing (spec §8 scenario: an unmatched line yields an
UndefinedBlock carrying the line's text). -/
def issubclass_TextBlock : BlockCls → Bool
  | .ImageBlock => false
  | .TableBlock => false
  | _ => true

/-- An assembled output block: class tag, accumulated text, bbox, page
range.  (`metadata` is always the empty mapping in the source and is
omitted.)  Non-text constructions in the source pass no `text`; the sdk
default is the empty string (spec §3: "accumulated text (empty for
non-text variants)"). -/
structure Block where
  cls : BlockCls
  text : String
  bbox : BBOX
  page_range : ℕ × ℕ
deriving DecidableEq, Repr

/-- Modelled from the spec: `LayoutDetectionOutput` (megaparse.layout_detection.output, not under
src/) is missing; spec §3 gives a LayoutRegion a stable identifier, a semantic label,
and a BBox. -/
structure LayoutDetectionOutput where
  bbox_id : ℕ
  label : Fin 11
  bbox : BBOX
deriving DecidableEq, Repr

/-- One recognized word of a line (onnxtr): only its geometry
`((x0, y0), (x1, y1))` is consumed by the assembly. -/
structure Word where
  geometry : BBOX
deriving DecidableEq, Repr

/-- One recognized text line (onnxtr): word geometries plus the text
`line.render()` returns, treated as an opaque input (`rendered`). -/
structure Line where
  words : List Word
  rendered : String
deriving DecidableEq, Repr

/-- One recognized block handed to assembly (onnxtr `page.blocks`): its
lines and the number of artefacts (only `len(block.artefacts)` is read). -/
structure RecBlock where
  lines : List Line
  artefacts : ℕ
deriving DecidableEq, Repr

/-! ### The Python dict `result`, as an insertion-ordered association list -/

/-- The per-page `result` dict: identifier → in-progress block, keeping
Python's insertion order. -/
abbrev Dict := List (ℕ × Block)

/-- Membership test `block_id in result`. -/
def dictMember (d : Dict) (k : ℕ) : Bool :=
  d.any (fun p => p.1 == k)

/-- Lookup `result[block_id]`. -/
def dictGet (d : Dict) (k : ℕ) : Option Block :=
  (d.find? (fun p => p.1 == k)).map Prod.snd

/-- In-place update of an existing key (Python keeps its position). -/
def dictUpdate (d : Dict) (k : ℕ) (v : Block) : Dict :=
  d.map (fun p => if p.1 == k then (k, v) else p)

/-- Assignment `result[k] = v`: update in place when present, else append (Python
dict insertion order). -/
def dictInsert (d : Dict) (k : ℕ) (v : Block) : Dict :=
  if dictMember d k then dictUpdate d k v else d ++ [(k, v)]

/-- Values `result.values()` in insertion order. -/
def dictValues (d : Dict) : List Block :=
  d.map Prod.snd

/-! ### `_get_block_cls`: the region matcher -/

/-- The default `threshold` argument of `_get_block_cls` (0.6); the
assembly never overrides it. -/
def defaultThreshold : ℚ := 6 / 10

/-- Embedding of `_get_block_cls` of doctr_parser.py.  Walks `layout` in order; for
each region checks the two bbox asserts, clips the intersection
(`union_*` in the source's naming), divides by the line's area and
compares strictly against `threshold`; first region above wins, else a
fresh identifier with `UndefinedBlock`.  The uuid4 call of the fallback
is `supply c`, bumping the counter.  Division by a zero `detection_area`
is modelled per spec §4.2 (degenerate boxes fail to match, no crash):
`ℚ` division by zero yields 0, which never exceeds a positive threshold
(in the source the operands are numpy scalars and the comparison with the
resulting nan is likewise false). -/
def get_block_cls (coordinates : ℚ × ℚ × ℚ × ℚ)
    (layout : List LayoutDetectionOutput) (threshold : ℚ)
    (supply : ℕ → ℕ) (c : ℕ) : Except String ((ℕ × BlockCls) × ℕ) :=
  match layout with
  | [] => .ok ((supply c, .UndefinedBlock), c + 1)
  | det :: rest =>
    let (x1, y1, x2, y2) := coordinates
    let X1 := det.bbox.top_left.x
    let Y1 := det.bbox.top_left.y
    let X2 := det.bbox.bottom_right.x
    let Y2 := det.bbox.bottom_right.y
    if ¬ (x1 ≤ x2 ∧ y1 ≤ y2) then .error "bbox1 coordinates are invalid"
    else if ¬ (X1 ≤ X2 ∧ Y1 ≤ Y2) then .error "bbox2 coordinates are invalid"
    else
      let union_x1 := max x1 X1
      let union_y1 := max y1 Y1
      let union_x2 := min x2 X2
      let union_y2 := min y2 Y2
      let union_width := max 0 (union_x2 - union_x1)
      let union_height := max 0 (union_y2 - union_y1)
      let union_area := union_width * union_height
      let detection_area := max 0 (x2 - x1) * max 0 (y2 - y1)
      if union_area / detection_area > threshold then
        .ok ((det.bbox_id, block_cls_map det.label), c)
      else
        get_block_cls coordinates rest threshold supply c

/-! ### `__to_elements_list`: per-line, per-block, per-page assembly -/

/-- The union bbox of a line's word geometries:
`min word[0][0]`, `min word[0][1]`, `max word[1][0]`, `max word[1][1]`.
An empty word list raises (Python: `min()` of an empty sequence). -/
def lineBBox (line : Line) : Except String (ℚ × ℚ × ℚ × ℚ) :=
  match line.words with
  | [] => .error "min() arg is an empty sequence"
  | w :: ws =>
    let x0 := ws.foldl (fun m v => min m v.geometry.top_left.x) w.geometry.top_left.x
    let y0 := ws.foldl (fun m v => min m v.geometry.top_left.y) w.geometry.top_left.y
    let x1 := ws.foldl (fun m v => max m v.geometry.bottom_right.x) w.geometry.bottom_right.x
    let y1 := ws.foldl (fun m v => max m v.geometry.bottom_right.y) w.geometry.bottom_right.y
    .ok (x0, y0, x1, y1)

/-- The body of `for line in block.lines` in `__to_elements_list`:
compute the line bbox, match it, then either merge into the existing
block under `block_id` (append `"\n" + line.render()`, expand the bbox to
the component-wise union), or — only when the matched class is a
`TextBlock` subclass — create a fresh block.  The source has no further
branch: a line whose class is non-text and whose identifier is absent
falls through, leaving `result` unchanged. -/
def processLine (page_number : ℕ) (layout : List LayoutDetectionOutput)
    (supply : ℕ → ℕ) (st : Dict × ℕ) (line : Line) :
    Except String (Dict × ℕ) := do
  let (x0, y0, x1, y1) ← lineBBox line
  let ((block_id, block_cls), c) ←
    get_block_cls (x0, y0, x1, y1) layout defaultThreshold supply st.2
  match dictGet st.1 block_id with
  | some old =>
      let merged : Block :=
        { old with
          text := old.text ++ "\n" ++ line.rendered
          bbox := { top_left := ⟨min x0 old.bbox.top_left.x, min y0 old.bbox.top_left.y⟩
                    bottom_right := ⟨max x1 old.bbox.bottom_right.x,
                                     max y1 old.bbox.bottom_right.y⟩ } }
      pure (dictUpdate st.1 block_id merged, c)
  | none =>
      if issubclass_TextBlock block_cls then
        pure (dictInsert st.1 block_id
          { cls := block_cls
            text := line.rendered
            bbox := { top_left := ⟨x0, y0⟩, bottom_right := ⟨x1, y1⟩ }
            page_range := (page_number, page_number) }, c)
      else
        pure (st.1, c)

/-- The `for det in layout` injection loop of `__to_elements_list`
(labels 6 = image, 8 = table): assign the region's block under a fresh
uuid4 key by plain dict assignment.  Note this loop sits INSIDE the
`for block in page.blocks` loop in the source. -/
def injectRegions (page_number : ℕ) (layout : List LayoutDetectionOutput)
    (supply : ℕ → ℕ) (st : Dict × ℕ) : Dict × ℕ :=
  layout.foldl
    (fun st det =>
      if det.label = 6 ∨ det.label = 8 then
        (dictInsert st.1 (supply st.2)
          { cls := block_cls_map det.label
            text := ""
            bbox := det.bbox
            page_range := (page_number, page_number) }, st.2 + 1)
      else st)
    st

/-- The body of `for block in page.blocks`: the lines/artefacts guard,
the line loop, then the injection loop. -/
def processBlock (page_number : ℕ) (layout : List LayoutDetectionOutput)
    (supply : ℕ → ℕ) (st : Dict × ℕ) (b : RecBlock) :
    Except String (Dict × ℕ) :=
  if b.lines.length ≠ 0 ∧ b.artefacts > 0 then
    .error "Block should not contain both lines and artefacts"
  else do
    let st ← b.lines.foldlM (processLine page_number layout supply) st
    pure (injectRegions page_number layout supply st)

/-- One page of `__to_elements_list`: `result = {}` then the block loop. -/
def assemblePage (page_number : ℕ) (blocks : List RecBlock)
    (layout : List LayoutDetectionOutput) (supply : ℕ → ℕ) (c : ℕ) :
    Except String (Dict × ℕ) :=
  blocks.foldlM (processBlock page_number layout supply) (([] : Dict), c)

/-- Stable insertion of a block into a list already sorted by the
top-left y key: `b` goes after every strictly smaller key and before
equal ones it did not precede. -/
def insertByY (b : Block) : List Block → List Block
  | [] => [b]
  | a :: rest =>
    if a.bbox.top_left.y < b.bbox.top_left.y then a :: insertByY b rest
    else b :: a :: rest

/-- Embedding of `sorted(result.values(), key=lambda block: block.bbox.top_left.y)`:
Python's `sorted` is a stable sort by the key; insertion sort is its
specification. -/
def sortByY : List Block → List Block
  | [] => []
  | b :: rest => insertByY b (sortByY rest)

/-- The page loop of `__to_elements_list` over
`zip(doctr_document.pages, layouts, strict=True)`: assemble each page,
sort its values, and append to the running result; `strict=True` raises
on a length mismatch. -/
def toElementsListAux : List (List RecBlock) → List (List LayoutDetectionOutput) →
    (ℕ → ℕ) → ℕ → ℕ → Except String (List Block)
  | [], [], _, _, _ => .ok []
  | [], _ :: _, _, _, _ => .error "zip() argument 2 is longer than argument 1"
  | _ :: _, [], _, _, _ => .error "zip() argument 2 is shorter than argument 1"
  | page :: ps, layout :: ls, supply, page_number, c => do
    let (d, c) ← assemblePage page_number page layout supply c
    let rest ← toElementsListAux ps ls supply (page_number + 1) c
    pure (sortByY (dictValues d) ++ rest)

/-- Embedding of `__to_elements_list`: the `content` of the returned `MPDocument`. -/
def toElementsList (pages : List (List RecBlock))
    (layouts : List (List LayoutDetectionOutput)) (supply : ℕ → ℕ) :
    Except String (List Block) :=
  toElementsListAux pages layouts supply 0 0

/-- The returned document: content plus the fixed detection-origin tag. -/
structure MPDocument where
  content : List Block
  detection_origin : String
deriving DecidableEq, Repr

/-- Final value of `get_text_recognition`, restricted to assembly. -/
def toDocument (pages : List (List RecBlock))
    (layouts : List (List LayoutDetectionOutput)) (supply : ℕ → ℕ) :
    Except String MPDocument :=
  (toElementsList pages layouts supply).map
    (fun content => { content := content, detection_origin := "doctr" })

/-! ### Spec-side definitions (refinement targets, from the spec's words) -/

/-- The bbox well-formedness invariant of spec §3, which the two asserts
of `_get_block_cls` enforce. -/
def validBox (b : BBOX) : Prop :=
  b.top_left.x ≤ b.bottom_right.x ∧ b.top_left.y ≤ b.bottom_right.y

/-- Spec §4.1 `intersectionArea`: clipped rectangle intersection, 0 when
the boxes do not overlap. -/
def intersectionArea (a b : BBOX) : ℚ :=
  max 0 (min a.bottom_right.x b.bottom_right.x - max a.top_left.x b.top_left.x) *
  max 0 (min a.bottom_right.y b.bottom_right.y - max a.top_left.y b.top_left.y)

/-- Spec §4.1 `area`: width × height. -/
def area (b : BBOX) : ℚ :=
  (b.bottom_right.x - b.top_left.x) * (b.bottom_right.y - b.top_left.y)

/-- Spec §4.2: overlap as the fraction of the line's area covered by the
region. -/
def overlapRatio (lineBox region : BBOX) : ℚ :=
  intersectionArea lineBox region / area lineBox

/-- Spec §4.2: the first region (in the given order) whose overlap ratio
strictly exceeds the threshold, if any. -/
def matchFirst (lineBox : BBOX) (layout : List LayoutDetectionOutput)
    (threshold : ℚ) : Option LayoutDetectionOutput :=
  layout.find? (fun det => decide (overlapRatio lineBox det.bbox > threshold))

/-- The per-page dict value lists of `__to_elements_list` BEFORE the
per-page sort, page by page (used to state the reading-order claim). -/
def pageValueLists : List (List RecBlock) → List (List LayoutDetectionOutput) →
    (ℕ → ℕ) → ℕ → ℕ → Except String (List (List Block))
  | [], [], _, _, _ => .ok []
  | [], _ :: _, _, _, _ => .error "zip() argument 2 is longer than argument 1"
  | _ :: _, [], _, _, _ => .error "zip() argument 2 is shorter than argument 1"
  | page :: ps, layout :: ls, supply, page_number, c => do
    let (d, c) ← assemblePage page_number page layout supply c
    let rest ← pageValueLists ps ls supply (page_number + 1) c
    pure (dictValues d :: rest)

/-! ### Concrete inputs used by witnesses and counterexamples -/

/-- Shorthand for a bbox from four coordinates. -/
def box (a b c d : ℚ) : BBOX := ⟨⟨a, b⟩, ⟨c, d⟩⟩

/-- A uuid4 supply whose draws are 100, 101, …, disjoint from the small
region identifiers of the concrete inputs. -/
def supply100 : ℕ → ℕ := fun n => 100 + n

/-- The identity uuid4 supply. -/
def idSupply : ℕ → ℕ := fun n => n

/-- A pathological uuid4 supply whose every draw is 5 (uuid4 gives no
uniqueness guarantee; the source never checks for collisions). -/
def supplyConst5 : ℕ → ℕ := fun _ => 5

/-- A one-word line "hello" at (1,1)–(9,9). -/
def helloLine : Line := ⟨[⟨box 1 1 9 9⟩], "hello"⟩

/-- An image-labeled region (label 6) with identifier 0 at (0,0)–(10,10). -/
def imgRegion : LayoutDetectionOutput := ⟨0, 6, box 0 0 10 10⟩

/-- The block direct injection produces for `imgRegion` on page 0. -/
def imgBlk : Block := ⟨.ImageBlock, "", box 0 0 10 10, (0, 0)⟩

/-- A title-labeled region (label 10) with identifier 3 at (0,0)–(100,20). -/
def titleRegion : LayoutDetectionOutput := ⟨3, 10, box 0 0 100 20⟩

/-- A one-word line "Hello" at (5,2)–(95,10). -/
def helloLine2 : Line := ⟨[⟨box 5 2 95 10⟩], "Hello"⟩

/-- A one-word line "World" at (5,11)–(95,19). -/
def worldLine : Line := ⟨[⟨box 5 11 95 19⟩], "World"⟩

/-- A text region (label 1, identifier 7) at (0,0)–(10,9): it covers 90%
of the line (0,0)–(10,10) without containing it. -/
def regA : LayoutDetectionOutput := ⟨7, 1, box 0 0 10 9⟩

/-- A title region (label 10, identifier 9) at (-1,-1)–(11,11): it
contains the line (0,0)–(10,10) entirely. -/
def regB : LayoutDetectionOutput := ⟨9, 10, box (-1) (-1) 11 11⟩

/-- A text region (label 1) with identifier 5 at (0,0)–(10,10). -/
def textRegion5 : LayoutDetectionOutput := ⟨5, 1, box 0 0 10 10⟩

/-- An image region (label 6) with identifier 7 at (20,20)–(30,30). -/
def imgRegion7 : LayoutDetectionOutput := ⟨7, 6, box 20 20 30 30⟩

/-- A text block "hi" as accumulated under some identifier. -/
def hiBlock : Block := ⟨.TextBlock, "hi", box 0 0 10 10, (0, 0)⟩


/-! ### Helper lemmas -/

/-- Refinement of the matcher: under the bbox asserts, `_get_block_cls`
computes the spec's first-match-wins search with the spec's overlap
ratio, falling back to a fresh identifier with the undefined class. -/
theorem get_block_cls_spec (x1 y1 x2 y2 threshold : ℚ) (supply : ℕ → ℕ) (c : ℕ)
    (layout : List LayoutDetectionOutput)
    (hx : x1 ≤ x2) (hy : y1 ≤ y2)
    (hreg : ∀ det ∈ layout, validBox det.bbox) :
    get_block_cls (x1, y1, x2, y2) layout threshold supply c =
      match matchFirst ⟨⟨x1, y1⟩, ⟨x2, y2⟩⟩ layout threshold with
      | some det => .ok ((det.bbox_id, block_cls_map det.label), c)
      | none => .ok ((supply c, .UndefinedBlock), c + 1) := by
  induction layout with
  | nil => rfl
  | cons det rest ih =>
    have hdet : validBox det.bbox := hreg det (List.mem_cons_self _ _)
    have hrest : ∀ d ∈ rest, validBox d.bbox :=
      fun d hd => hreg d (List.mem_cons_of_mem _ hd)
    have harea : area ⟨⟨x1, y1⟩, ⟨x2, y2⟩⟩ = max 0 (x2 - x1) * max 0 (y2 - y1) := by
      rw [area, max_eq_right (sub_nonneg.mpr hx), max_eq_right (sub_nonneg.mpr hy)]
    have hratio : overlapRatio ⟨⟨x1, y1⟩, ⟨x2, y2⟩⟩ det.bbox =
        max 0 (min x2 det.bbox.bottom_right.x - max x1 det.bbox.top_left.x) *
          max 0 (min y2 det.bbox.bottom_right.y - max y1 det.bbox.top_left.y) /
          (max 0 (x2 - x1) * max 0 (y2 - y1)) := by
      rw [overlapRatio, intersectionArea, harea]
    simp only [get_block_cls]
    rw [if_neg (not_not_intro ⟨hx, hy⟩), if_neg (not_not_intro ⟨hdet.1, hdet.2⟩)]
    by_cases hc : overlapRatio ⟨⟨x1, y1⟩, ⟨x2, y2⟩⟩ det.bbox > threshold
    · rw [matchFirst, List.find?_cons_of_pos _ (by simpa using hc)]
      rw [hratio] at hc
      rw [if_pos hc]
    · rw [matchFirst, List.find?_cons_of_neg _ (by simpa using hc)]
      rw [hratio] at hc
      rw [if_neg hc]
      exact ih hrest

/-- Every element of `insertByY b l` is `b` or from `l`. -/
theorem mem_insertByY {x b : Block} {l : List Block} :
    x ∈ insertByY b l ↔ x = b ∨ x ∈ l := by
  induction l with
  | nil => simp [insertByY]
  | cons a rest ih =>
    simp only [insertByY]
    split
    all_goals simp only [List.mem_cons, ih]
    all_goals tauto

/-- Stable insertion preserves sortedness by the top-left y key. -/
theorem insertByY_pairwise (b : Block) (l : List Block)
    (hl : l.Pairwise (fun u v => u.bbox.top_left.y ≤ v.bbox.top_left.y)) :
    (insertByY b l).Pairwise (fun u v => u.bbox.top_left.y ≤ v.bbox.top_left.y) := by
  induction l with
  | nil => simp [insertByY]
  | cons a rest ih =>
    rw [List.pairwise_cons] at hl
    obtain ⟨ha, hrest⟩ := hl
    simp only [insertByY]
    split
    · rename_i hlt
      rw [List.pairwise_cons]
      refine ⟨fun x hx => ?_, ih hrest⟩
      rcases mem_insertByY.mp hx with rfl | hx
      · exact le_of_lt hlt
      · exact ha x hx
    · rename_i hnlt
      rw [not_lt] at hnlt
      rw [List.pairwise_cons]
      refine ⟨fun x hx => ?_, List.pairwise_cons.mpr ⟨ha, hrest⟩⟩
      rcases List.mem_cons.mp hx with rfl | hx
      · exact hnlt
      · exact le_trans hnlt (ha x hx)

/-- The per-page sort output is sorted by ascending top-left y. -/
theorem sortByY_pairwise (l : List Block) :
    (sortByY l).Pairwise (fun u v => u.bbox.top_left.y ≤ v.bbox.top_left.y) := by
  induction l with
  | nil => simp [sortByY]
  | cons b rest ih => exact insertByY_pairwise b _ ih

/-- Stability of the insertion step: restricted to any fixed key value,
inserting `b` prepends it when it has that key and changes nothing
otherwise. -/
theorem insertByY_filter (b : Block) (l : List Block) (q : ℚ) :
    (insertByY b l).filter (fun x => x.bbox.top_left.y == q) =
      if b.bbox.top_left.y == q then
        b :: l.filter (fun x => x.bbox.top_left.y == q)
      else l.filter (fun x => x.bbox.top_left.y == q) := by
  induction l with
  | nil => simp [insertByY, List.filter_cons]
  | cons a rest ih =>
    simp only [insertByY]
    split
    · rename_i hlt
      by_cases hbq : b.bbox.top_left.y = q
      · have haq : ¬ a.bbox.top_left.y = q := by
          rw [← hbq]
          exact ne_of_lt hlt
        simp [List.filter_cons, haq, hbq, ih]
      · simp [List.filter_cons, hbq, ih]
    · simp [List.filter_cons]

/-- Stability of the per-page sort: for every key value, the subsequence
of blocks carrying that key is unchanged — ties keep insertion order. -/
theorem sortByY_filter (l : List Block) (q : ℚ) :
    (sortByY l).filter (fun x => x.bbox.top_left.y == q) =
      l.filter (fun x => x.bbox.top_left.y == q) := by
  induction l with
  | nil => rfl
  | cons b rest ih =>
    simp only [sortByY]
    rw [insertByY_filter, List.filter_cons]
    by_cases hbq : b.bbox.top_left.y = q
    · simp [hbq, ih]
    · simp [hbq, ih]

/-- The per-page sort permutes the dict values. -/
theorem sortByY_perm (l : List Block) : (sortByY l).Perm l := by
  induction l with
  | nil => rfl
  | cons b rest ih =>
    simp only [sortByY]
    have h : (insertByY b (sortByY rest)).Perm (b :: sortByY rest) := by
      clear ih
      induction sortByY rest with
      | nil => rfl
      | cons a l ihl =>
        simp only [insertByY]
        split
        · exact (ihl.cons a).trans (List.Perm.swap b a l)
        · rfl
    exact h.trans (ih.cons b)

/-- Unfolding of membership over a cons cell. -/
theorem dictMember_cons (p : ℕ × Block) (rest : Dict) (k : ℕ) :
    dictMember (p :: rest) k = ((p.1 == k) || dictMember rest k) := by
  simp [dictMember]

/-- Updating an existing key then looking it up yields the new value. -/
theorem dictGet_dictUpdate_self (d : Dict) (k : ℕ) (v : Block)
    (hmem : dictMember d k = true) : dictGet (dictUpdate d k v) k = some v := by
  induction d with
  | nil => simp [dictMember] at hmem
  | cons p rest ih =>
    by_cases hpk : p.1 = k
    · simp [dictUpdate, dictGet, hpk, List.find?_cons_of_pos]
    · have hmem' : dictMember rest k = true := by
        rw [dictMember_cons] at hmem
        simpa [hpk] using hmem
      have hpkb : ¬ ((p.1 == k) = true) := by simp [hpk]
      simp only [dictUpdate, List.map_cons]
      rw [if_neg hpkb, dictGet, List.find?_cons_of_neg _ (by simpa using hpk)]
      have ih' := ih hmem'
      rw [dictGet, dictUpdate] at ih'
      exact ih'

/-- Appending a fresh key then looking it up yields the new value. -/
theorem dictGet_append_self (d : Dict) (k : ℕ) (v : Block)
    (hmem : dictMember d k = false) : dictGet (d ++ [(k, v)]) k = some v := by
  induction d with
  | nil => simp [dictGet, List.find?_cons_of_pos]
  | cons p rest ih =>
    rw [dictMember_cons, Bool.or_eq_false_iff] at hmem
    rw [List.cons_append, dictGet,
      List.find?_cons_of_neg _ (by simp [hmem.1]), ← dictGet]
    exact ih hmem.2

/-- Looking up the just-assigned key after `result[k] = v` yields `v`,
whether or not the key was already present. -/
theorem dictGet_dictInsert_self (d : Dict) (k : ℕ) (v : Block) :
    dictGet (dictInsert d k v) k = some v := by
  rw [dictInsert]
  by_cases hmem : dictMember d k = true
  · rw [if_pos hmem]
    exact dictGet_dictUpdate_self d k v hmem
  · rw [if_neg hmem]
    exact dictGet_append_self d k v (by simpa using hmem)

/-- The page loop equals: collect the per-page pre-sort value lists, sort
each page's list, and concatenate in page order. -/
theorem toElementsListAux_eq (ps : List (List RecBlock)) :
    ∀ ls supply pn c,
      toElementsListAux ps ls supply pn c =
        (pageValueLists ps ls supply pn c).map
          (fun segs => (segs.map sortByY).flatten) := by
  induction ps with
  | nil =>
    intro ls supply pn c
    cases ls <;> rfl
  | cons p ps ih =>
    intro ls supply pn c
    cases ls with
    | nil => rfl
    | cons layout ls =>
      simp only [toElementsListAux, pageValueLists, Bind.bind, Except.bind]
      cases h : assemblePage pn p layout supply c with
      | error e => rfl
      | ok v =>
        obtain ⟨d, c2⟩ := v
        dsimp only
        rw [ih]
        cases hpv : pageValueLists ps ls supply (pn + 1) c2 with
        | error e => rfl
        | ok segs => rfl

/-! ### Claim theorems -/

/-- C3: for every (valid) line bbox and every ordered sequence of layout
regions, the matcher iterates the regions in order, computes for each the
ratio intersectionArea(line, region) / area(line), and returns the
identifier and label of the first region whose ratio strictly exceeds the
threshold; if none exceeds it, it returns a freshly generated identifier
with the undefined label — always some identifier/label pair. -/
theorem c3_matcher_first_match (x1 y1 x2 y2 threshold : ℚ) (supply : ℕ → ℕ)
    (c : ℕ) (layout : List LayoutDetectionOutput)
    (hx : x1 ≤ x2) (hy : y1 ≤ y2)
    (hreg : ∀ det ∈ layout, validBox det.bbox) :
    get_block_cls (x1, y1, x2, y2) layout threshold supply c =
      match matchFirst ⟨⟨x1, y1⟩, ⟨x2, y2⟩⟩ layout threshold with
      | some det => .ok ((det.bbox_id, block_cls_map det.label), c)
      | none => .ok ((supply c, .UndefinedBlock), c + 1) :=
  get_block_cls_spec x1 y1 x2 y2 threshold supply c layout hx hy hreg

/-- Witness for C3: a line at (0,0)–(10,10) against the single region
`regA` (id 7, text label) covering 90% of it at threshold 0.6. -/
theorem c3_witness :
    get_block_cls (0, 0, 10, 10) [regA] (6 / 10) idSupply 0 =
      .ok ((7, .TextBlock), 0) := by
  have h := c3_matcher_first_match 0 0 10 10 (6 / 10) idSupply 0 [regA]
    (by norm_num) (by norm_num)
    (by intro det hd; simp only [List.mem_singleton] at hd; subst hd
        exact ⟨by norm_num [regA, box], by norm_num [regA, box]⟩)
  rw [h]
  norm_num [matchFirst, overlapRatio, intersectionArea, area, regA, box,
    List.find?, block_cls_map]

/-- C5: a line bbox with zero area (degenerate but well-oriented box)
never matches any region — the division is treated as non-matching, the
matcher does not fail, and the line falls through to the
freshly-generated-identifier / undefined-label result. -/
theorem c5_degenerate_line (x1 y1 x2 y2 : ℚ) (supply : ℕ → ℕ) (c : ℕ)
    (layout : List LayoutDetectionOutput)
    (hx : x1 ≤ x2) (hy : y1 ≤ y2)
    (hzero : (x2 - x1) * (y2 - y1) = 0)
    (hreg : ∀ det ∈ layout, validBox det.bbox) :
    get_block_cls (x1, y1, x2, y2) layout defaultThreshold supply c =
      .ok ((supply c, .UndefinedBlock), c + 1) := by
  rw [get_block_cls_spec x1 y1 x2 y2 defaultThreshold supply c layout hx hy hreg]
  have hnone : matchFirst ⟨⟨x1, y1⟩, ⟨x2, y2⟩⟩ layout defaultThreshold = none := by
    rw [matchFirst, List.find?_eq_none]
    intro det _
    simp only [decide_eq_true_eq]
    have harea : area ⟨⟨x1, y1⟩, ⟨x2, y2⟩⟩ = 0 := hzero
    rw [gt_iff_lt, not_lt, overlapRatio, harea, div_zero]
    norm_num [defaultThreshold]
  rw [hnone]

/-- Witness for C5: the zero-width line (2,2)–(2,5) against `regA`. -/
theorem c5_witness :
    get_block_cls (2, 2, 2, 5) [regA] defaultThreshold supply100 0 =
      .ok ((100, .UndefinedBlock), 1) := by
  have h := c5_degenerate_line 2 2 2 5 supply100 0 [regA]
    (by norm_num) (by norm_num) (by norm_num)
    (by intro det hd; simp only [List.mem_singleton] at hd; subst hd
        exact ⟨by norm_num [regA, box], by norm_num [regA, box]⟩)
  simpa [supply100] using h

/-- C8: a text line whose word-geometry list is empty makes its
processing fail with the empty-sequence error (Python's `min()` raises);
the line is neither silently skipped nor coerced to a zero box. -/
theorem c8_empty_word_list (page_number : ℕ)
    (layout : List LayoutDetectionOutput) (supply : ℕ → ℕ) (st : Dict × ℕ)
    (line : Line) (h : line.words = []) :
    processLine page_number layout supply st line =
      .error "min() arg is an empty sequence" := by
  have hbb : lineBBox line = .error "min() arg is an empty sequence" := by
    simp [lineBBox, h]
  simp [processLine, hbb, Bind.bind, Except.bind]

/-- Witness for C8: a line with no words at all. -/
theorem c8_witness :
    processLine 0 [imgRegion] supply100 ([], 0) ⟨[], "ghost"⟩ =
      .error "min() arg is an empty sequence" :=
  c8_empty_word_list 0 [imgRegion] supply100 ([], 0) ⟨[], "ghost"⟩ rfl

/-- C10: a recognized block containing at least one line and at least one
artefact makes assembly raise the lines-and-artefacts ValueError, before
any line of the block is matched or accumulated, for every layout and
every incoming state. -/
theorem c10_lines_and_artefacts (page_number : ℕ)
    (layout : List LayoutDetectionOutput) (supply : ℕ → ℕ) (st : Dict × ℕ)
    (b : RecBlock) (hl : b.lines.length ≠ 0) (ha : b.artefacts > 0) :
    processBlock page_number layout supply st b =
      .error "Block should not contain both lines and artefacts" := by
  rw [processBlock, if_pos ⟨hl, ha⟩]

/-- Witness for C10: a block with one line and two artefacts. -/
theorem c10_witness :
    processBlock 0 [imgRegion] supply100 ([], 0) ⟨[helloLine], 2⟩ =
      .error "Block should not contain both lines and artefacts" :=
  c10_lines_and_artefacts 0 [imgRegion] supply100 ([], 0) ⟨[helloLine], 2⟩
    (by norm_num) (by norm_num)

/-- C1, counterexample: the line "hello" at (1,1)–(9,9) lies inside the
image-labeled region `imgRegion` (ratio 1 > 0.6), so its matched label
maps to a non-text-capable variant and its identifier is not already
accumulating.  The claim says the implementation rejects this as a
contract violation; instead assembly succeeds and the output holds only
the injected empty-text image block — the line's text appears in no
block, i.e. it is silently dropped. -/
theorem c1_counterexample :
    toElementsList [[⟨[helloLine], 0⟩]] [[imgRegion]] supply100 =
      .ok [imgBlk] := by
  norm_num [toElementsList, toElementsListAux, assemblePage, processBlock,
    processLine, lineBBox, get_block_cls, injectRegions, dictInsert,
    dictMember, dictGet, dictUpdate, dictValues, sortByY, insertByY,
    defaultThreshold, block_cls_map, issubclass_TextBlock, helloLine,
    imgRegion, imgBlk, box, supply100, Bind.bind, Except.bind, Pure.pure,
    Except.pure]

/-- C1 (amended): a text line whose match has a non-text-capable class
(image/table) while its identifier is not already accumulating is
silently dropped — `result` is left unchanged and no error is raised, so
such a line vanishes from the output. -/
theorem c1_nontext_line_dropped (page_number : ℕ)
    (layout : List LayoutDetectionOutput) (supply : ℕ → ℕ) (st : Dict × ℕ)
    (line : Line) (x0 y0 x1 y1 : ℚ) (block_id : ℕ) (block_cls : BlockCls)
    (c2 : ℕ)
    (hbb : lineBBox line = .ok (x0, y0, x1, y1))
    (hmatch : get_block_cls (x0, y0, x1, y1) layout defaultThreshold supply
      st.2 = .ok ((block_id, block_cls), c2))
    (hnontext : issubclass_TextBlock block_cls = false)
    (habsent : dictGet st.1 block_id = none) :
    processLine page_number layout supply st line = .ok (st.1, c2) := by
  simp [processLine, hbb, hmatch, habsent, hnontext, Bind.bind, Except.bind,
    Pure.pure, Except.pure]

/-- Witness for the amended C1: "hello" matched to the image region with
an empty accumulator. -/
theorem c1_witness :
    processLine 0 [imgRegion] supply100 ([], 0) helloLine = .ok ([], 0) := by
  have h := c1_nontext_line_dropped 0 [imgRegion] supply100 ([], 0) helloLine
    1 1 9 9 0 .ImageBlock 0
    (by norm_num [lineBBox, helloLine, box])
    (by norm_num [get_block_cls, imgRegion, box, defaultThreshold] <;> rfl)
    rfl rfl
  exact h

/-- C2: the claim says every image/table region yields exactly one block
per page, independent of the page's recognized content.  The injection
loop sits inside the `for block in page.blocks` loop, so a page with two
recognized blocks (here both empty) emits the single image region TWICE,
and a page with no recognized blocks emits it ZERO times. -/
theorem c2_injection_per_recblock :
    toElementsList [[⟨[], 0⟩, ⟨[], 0⟩]] [[imgRegion]] supply100 =
      .ok [imgBlk, imgBlk]
    ∧ toElementsList [[]] [[imgRegion]] supply100 = .ok [] := by
  constructor <;>
    norm_num [toElementsList, toElementsListAux, assemblePage, processBlock,
      processLine, injectRegions, dictInsert, dictMember, dictGet,
      dictUpdate, dictValues, sortByY, insertByY, imgRegion, imgBlk, box,
      supply100, Bind.bind, Except.bind, Pure.pure, Except.pure] <;> rfl

/-- C4: two lines accumulated (in either order) under the same block
identifier: text is the first-applied line's text, newline, then the
second's; the final bbox is the component-wise union of both line bboxes
and is the same for both orders. -/
theorem c4_merge_order (page_number : ℕ)
    (layout : List LayoutDetectionOutput) (supply : ℕ → ℕ) (c : ℕ)
    (l1 l2 : Line) (a0 b0 a1 b1 a2 b2 a3 b3 : ℚ) (block_id : ℕ)
    (block_cls : BlockCls)
    (h1 : lineBBox l1 = .ok (a0, b0, a1, b1))
    (h2 : lineBBox l2 = .ok (a2, b2, a3, b3))
    (hm1 : get_block_cls (a0, b0, a1, b1) layout defaultThreshold supply c =
      .ok ((block_id, block_cls), c))
    (hm2 : get_block_cls (a2, b2, a3, b3) layout defaultThreshold supply c =
      .ok ((block_id, block_cls), c))
    (htext : issubclass_TextBlock block_cls = true) :
    (processLine page_number layout supply (([] : Dict), c) l1 >>=
        fun st => processLine page_number layout supply st l2) =
      .ok ([(block_id,
        { cls := block_cls
          text := l1.rendered ++ "\n" ++ l2.rendered
          bbox := ⟨⟨min a0 a2, min b0 b2⟩, ⟨max a1 a3, max b1 b3⟩⟩
          page_range := (page_number, page_number) })], c)
    ∧ (processLine page_number layout supply (([] : Dict), c) l2 >>=
        fun st => processLine page_number layout supply st l1) =
      .ok ([(block_id,
        { cls := block_cls
          text := l2.rendered ++ "\n" ++ l1.rendered
          bbox := ⟨⟨min a0 a2, min b0 b2⟩, ⟨max a1 a3, max b1 b3⟩⟩
          page_range := (page_number, page_number) })], c) := by
  constructor
  · simp [processLine, h1, h2, hm1, hm2, htext, dictGet, dictInsert,
      dictMember, dictUpdate, List.find?, Bind.bind, Except.bind, Pure.pure,
      Except.pure, min_comm, max_comm]
  · simp [processLine, h1, h2, hm1, hm2, htext, dictGet, dictInsert,
      dictMember, dictUpdate, List.find?, Bind.bind, Except.bind, Pure.pure,
      Except.pure, min_comm, max_comm]

/-- Witness for C4: the spec §8 round-trip page — title region (id 3) at
(0,0)–(100,20) with "Hello" at (5,2)–(95,10) and "World" at
(5,11)–(95,19). -/
theorem c4_witness :
    (processLine 0 [titleRegion] supply100 ([], 0) helloLine2 >>=
        fun st => processLine 0 [titleRegion] supply100 st worldLine) =
      .ok ([(3,
        { cls := .TitleBlock
          text := "Hello\nWorld"
          bbox := box 5 2 95 19
          page_range := (0, 0) })], 0) := by
  have h := c4_merge_order 0 [titleRegion] supply100 0 helloLine2 worldLine
    5 2 95 10 5 11 95 19 3 .TitleBlock
    (by norm_num [lineBBox, helloLine2, box])
    (by norm_num [lineBBox, worldLine, box])
    (by norm_num [get_block_cls, titleRegion, box, defaultThreshold,
      block_cls_map])
    (by norm_num [get_block_cls, titleRegion, box, defaultThreshold,
      block_cls_map])
    rfl
  rw [h.1]
  norm_num [helloLine2, worldLine, box]
  rfl

/-- C6: whenever assembly succeeds, the final content is the
concatenation, in original page order, of each page's dict values sorted
by ascending top-left y; the per-page sort is stably sorted — its output
is pairwise ordered by the key, and for every key value the subsequence
of blocks with that key keeps its insertion order — and it permutes the
page's blocks (both accumulated and directly injected). -/
theorem c6_reading_order (pages : List (List RecBlock))
    (layouts : List (List LayoutDetectionOutput)) (supply : ℕ → ℕ)
    (segs : List (List Block))
    (h : pageValueLists pages layouts supply 0 0 = .ok segs) :
    toElementsList pages layouts supply = .ok ((segs.map sortByY).flatten)
    ∧ (∀ seg ∈ segs, (sortByY seg).Pairwise
        (fun u v => u.bbox.top_left.y ≤ v.bbox.top_left.y))
    ∧ (∀ seg ∈ segs, ∀ q : ℚ,
        (sortByY seg).filter (fun x => x.bbox.top_left.y == q) =
          seg.filter (fun x => x.bbox.top_left.y == q))
    ∧ (∀ seg ∈ segs, (sortByY seg).Perm seg) := by
  refine ⟨?_, fun seg _ => sortByY_pairwise seg,
    fun seg _ q => sortByY_filter seg q, fun seg _ => sortByY_perm seg⟩
  rw [toElementsList, toElementsListAux_eq, h]
  rfl

/-- Witness for C6: one page, no recognized blocks beyond the injected
image region. -/
theorem c6_witness :
    toElementsList [[⟨[], 0⟩]] [[imgRegion]] supply100 = .ok [imgBlk] := by
  have h := c6_reading_order [[⟨[], 0⟩]] [[imgRegion]] supply100 [[imgBlk]]
    (by norm_num [pageValueLists, assemblePage, processBlock, processLine,
      injectRegions, dictInsert, dictMember, dictValues, imgRegion, imgBlk,
      box, supply100, Bind.bind, Except.bind, Pure.pure, Except.pure] <;> rfl)
  rw [h.1]
  rfl

/-- C7, counterexample: the line "hello" accumulates a text block under
region identifier 5; the injection of the image region then draws the
colliding fresh identifier 5 (uuid4 guarantees nothing and the source
never checks).  The same identifier thus both accumulates merged text and
is targeted by direct non-text injection — yet assembly returns
successfully, the injected image block silently replacing the
accumulated text, instead of raising the fatal error the claim
requires. -/
theorem c7_counterexample :
    toElementsList [[⟨[helloLine], 0⟩]] [[textRegion5, imgRegion7]]
      supplyConst5 =
      .ok [{ cls := .ImageBlock, text := "", bbox := box 20 20 30 30,
             page_range := (0, 0) }] := by
  norm_num [toElementsList, toElementsListAux, assemblePage, processBlock,
    processLine, lineBBox, get_block_cls, injectRegions, dictInsert,
    dictMember, dictGet, dictUpdate, dictValues, sortByY, insertByY,
    defaultThreshold, block_cls_map, issubclass_TextBlock, helloLine,
    textRegion5, imgRegion7, box, supplyConst5, Bind.bind, Except.bind,
    Pure.pure, Except.pure]

/-- C7 (amended): no conflict error exists.  Direct injection of an
image/table region is a plain dict assignment under the freshly drawn
identifier: it always succeeds (the injection step is total, never an
error), and afterwards that identifier holds the injected empty-text
block — even when the identifier was already accumulating, in which case
the previous block is silently replaced. -/
theorem c7_injection_overwrites (page_number : ℕ)
    (det : LayoutDetectionOutput) (supply : ℕ → ℕ) (d : Dict) (c : ℕ)
    (hlabel : det.label = 6 ∨ det.label = 8) :
    injectRegions page_number [det] supply (d, c) =
      (dictInsert d (supply c)
        { cls := block_cls_map det.label
          text := ""
          bbox := det.bbox
          page_range := (page_number, page_number) }, c + 1)
    ∧ dictGet (injectRegions page_number [det] supply (d, c)).1 (supply c) =
      some { cls := block_cls_map det.label
             text := ""
             bbox := det.bbox
             page_range := (page_number, page_number) } := by
  have h1 : injectRegions page_number [det] supply (d, c) =
      (dictInsert d (supply c)
        { cls := block_cls_map det.label
          text := ""
          bbox := det.bbox
          page_range := (page_number, page_number) }, c + 1) := by
    simp [injectRegions, hlabel]
  exact ⟨h1, by rw [h1]; exact dictGet_dictInsert_self _ _ _⟩

/-- Witness for the amended C7: the colliding supply overwrites the
accumulated "hi" text block under identifier 5 with the injected image
block, with no error. -/
theorem c7_witness :
    dictGet (injectRegions 0 [imgRegion7] supplyConst5
        ([(5, hiBlock)], 0)).1 5 =
      some { cls := .ImageBlock, text := "", bbox := box 20 20 30 30,
             page_range := (0, 0) } := by
  have h := c7_injection_overwrites 0 imgRegion7 supplyConst5
    [(5, hiBlock)] 0 (Or.inl rfl)
  have h2 := h.2
  norm_num [supplyConst5, imgRegion7] at h2 ⊢
  rw [h2]
  rfl

/-- C9, counterexample: the line (0,0)–(10,10) lies entirely inside
exactly one region's bbox — `regB` (identifier 9), since `regA` at
(0,0)–(10,9) does not contain it — and the threshold 0.6 lies strictly
between 0 and 1; yet the matcher returns `regA`'s identifier 7, because
`regA` comes first and its overlap ratio 0.9 already exceeds the
threshold. -/
theorem c9_counterexample :
    get_block_cls (0, 0, 10, 10) [regA, regB] defaultThreshold idSupply 0 =
      .ok ((7, .TextBlock), 0)
    ∧ (regB.bbox.top_left.x ≤ 0 ∧ regB.bbox.top_left.y ≤ 0 ∧
        (10 : ℚ) ≤ regB.bbox.bottom_right.x ∧
        (10 : ℚ) ≤ regB.bbox.bottom_right.y)
    ∧ ¬ (regA.bbox.top_left.x ≤ 0 ∧ regA.bbox.top_left.y ≤ 0 ∧
        (10 : ℚ) ≤ regA.bbox.bottom_right.x ∧
        (10 : ℚ) ≤ regA.bbox.bottom_right.y)
    ∧ (0 : ℚ) < defaultThreshold ∧ defaultThreshold < 1 ∧ (7 : ℕ) ≠ 9 := by
  refine ⟨?_, ?_, ?_, ?_, ?_, ?_⟩ <;>
    norm_num [get_block_cls, regA, regB, box, defaultThreshold, block_cls_map,
      idSupply]

/-- C9 (amended): a positive-area line lying entirely inside a region is
matched to that region, for every threshold in (0, 1), PROVIDED no
earlier region in the sequence already exceeds the threshold (first
match wins). -/
theorem c9_contained_region (x1 y1 x2 y2 threshold : ℚ) (supply : ℕ → ℕ)
    (c : ℕ) (pre post : List LayoutDetectionOutput)
    (det : LayoutDetectionOutput)
    (hx : x1 < x2) (hy : y1 < y2)
    (ht0 : 0 < threshold) (ht1 : threshold < 1)
    (hreg : ∀ d ∈ pre ++ det :: post, validBox d.bbox)
    (hcont : det.bbox.top_left.x ≤ x1 ∧ det.bbox.top_left.y ≤ y1 ∧
      x2 ≤ det.bbox.bottom_right.x ∧ y2 ≤ det.bbox.bottom_right.y)
    (hpre : ∀ d ∈ pre,
      ¬ (overlapRatio ⟨⟨x1, y1⟩, ⟨x2, y2⟩⟩ d.bbox > threshold)) :
    get_block_cls (x1, y1, x2, y2) (pre ++ det :: post) threshold supply c =
      .ok ((det.bbox_id, block_cls_map det.label), c) := by
  rw [get_block_cls_spec x1 y1 x2 y2 threshold supply c (pre ++ det :: post)
    (le_of_lt hx) (le_of_lt hy) hreg]
  have hdet : decide
      (overlapRatio ⟨⟨x1, y1⟩, ⟨x2, y2⟩⟩ det.bbox > threshold) = true := by
    have hpos : (0 : ℚ) < (x2 - x1) * (y2 - y1) :=
      mul_pos (by linarith) (by linarith)
    have hinter : intersectionArea ⟨⟨x1, y1⟩, ⟨x2, y2⟩⟩ det.bbox =
        (x2 - x1) * (y2 - y1) := by
      rw [intersectionArea]
      simp only [min_eq_left hcont.2.2.1, max_eq_left hcont.1,
        min_eq_left hcont.2.2.2, max_eq_left hcont.2.1]
      rw [max_eq_right (by linarith), max_eq_right (by linarith)]
    have hratio : overlapRatio ⟨⟨x1, y1⟩, ⟨x2, y2⟩⟩ det.bbox = 1 := by
      rw [overlapRatio, hinter, area]
      exact div_self (ne_of_gt hpos)
    simp only [decide_eq_true_eq, hratio]
    exact ht1
  have hfind : matchFirst ⟨⟨x1, y1⟩, ⟨x2, y2⟩⟩ (pre ++ det :: post)
      threshold = some det := by
    rw [matchFirst, List.find?_append]
    have hnone : List.find? (fun d => decide
        (overlapRatio ⟨⟨x1, y1⟩, ⟨x2, y2⟩⟩ d.bbox > threshold)) pre = none := by
      rw [List.find?_eq_none]
      intro d hd
      simpa using hpre d hd
    rw [hnone, Option.none_or, List.find?_cons, hdet]
  rw [hfind]

/-- Witness for the amended C9: line (0,0)–(10,10), a non-overlapping
image region first, then the containing region `regB`. -/
theorem c9_witness :
    get_block_cls (0, 0, 10, 10) [imgRegion7, regB] defaultThreshold
      idSupply 0 = .ok ((9, .TitleBlock), 0) := by
  have h := c9_contained_region 0 0 10 10 defaultThreshold idSupply 0
    [imgRegion7] [] regB
    (by norm_num) (by norm_num)
    (by norm_num [defaultThreshold]) (by norm_num [defaultThreshold])
    (by intro d hd
        simp only [List.mem_append, List.mem_singleton, List.mem_cons,
          List.not_mem_nil, or_false] at hd
        rcases hd with rfl | rfl
        · exact ⟨by norm_num [imgRegion7, box], by norm_num [imgRegion7, box]⟩
        · exact ⟨by norm_num [regB, box], by norm_num [regB, box]⟩)
    (by norm_num [regB, box])
    (by intro d hd
        simp only [List.mem_singleton] at hd
        subst hd
        norm_num [overlapRatio, intersectionArea, area, imgRegion7, box,
          defaultThreshold])
  simpa [regB, block_cls_map] using h

end Megaparse
